import Mathlib

/-!
Shallow embedding of the Enhanced Todo plugin core (task extraction,
complexity scoring, priority classification, suitability analysis,
breakdown suggestions and record lifecycle helpers), together with
theorems settling the specification claims.

Strings are modelled as `List Char`; JavaScript regular-expression tests
are translated to deterministic matchers (all the alternations involved
are prefix-disjoint, so no backtracking is observable); JavaScript
numbers are modelled as `ℕ`/`ℤ`/`ℚ` as appropriate.
-/

/-- Whitespace class of JavaScript regular expressions (`\s`) and of
`String.prototype.trim`, restricted to the code points that can occur here;
includes the ASCII whitespace characters and NBSP. -/
def isJsWhitespace (c : Char) : Bool :=
  c = ' ' || c = '\t' || c = '\n' || c = '\x0b' || c = '\x0c' || c = '\r' || c = ' '

/-- Word-character class of JavaScript regular expressions (`\w`): ASCII
letters, digits and underscore. -/
def isWordChar (c : Char) : Bool :=
  c.isAlphanum || c = '_'

/-- Embeds `String.prototype.trim`. -/
def trimStr (l : List Char) : List Char :=
  ((l.dropWhile isJsWhitespace).reverse.dropWhile isJsWhitespace).reverse

/-- Embeds `content.split('\n')`. -/
def splitLines (l : List Char) : List (List Char) :=
  l.splitOn '\n'

/-- Embeds `String.prototype.toLowerCase`, ASCII range (the only one the
keyword tables exercise). -/
def lowerStr (l : List Char) : List Char :=
  l.map Char.toLower

/-- Embeds `hay.includes(needle)`. -/
def strContains (hay needle : List Char) : Bool :=
  needle.isPrefixOf hay ||
    match hay with
    | [] => false
    | _ :: t => strContains t needle

/-- Embeds `hay.indexOf(needle)` (as an `Option` instead of `-1`). -/
def strIndexOf? (hay needle : List Char) : Option ℕ :=
  if needle.isPrefixOf hay then some 0
  else
    match hay with
    | [] => none
    | _ :: t => (strIndexOf? t needle).map (· + 1)

/-- Does the title contain any of the listed keywords
(`title.match(/(w1|w2|...)/)` as a Boolean test)? -/
def containsAny (l : List Char) (ws : List (List Char)) : Bool :=
  ws.any (fun w => strContains l w)

/-- Does the title start with any of the listed keywords
(`title.match(/^(w1|w2|...)/)` as a Boolean test)? -/
def startsWithAny (l : List Char) (ws : List (List Char)) : Bool :=
  ws.any (fun w => w.isPrefixOf l)

/-- The four priority tiers of `TaskPriority` in `constants.ts`. -/
inductive TaskPriority
  | A
  | B
  | C
  | D
deriving DecidableEq, Repr, Inhabited

/-- String value of a `TaskPriority` enum member (they are the string
enum values 'A'..'D'). -/
def TaskPriority.str : TaskPriority → List Char
  | .A => ['A']
  | .B => ['B']
  | .C => ['C']
  | .D => ['D']

/-- Tier order D < C < B < A used by the spec, as a numeric level. -/
def prLevel : TaskPriority → ℕ
  | .D => 0
  | .C => 1
  | .B => 2
  | .A => 3

/-- `AUTO_PRIORITY_THRESHOLDS.PRIORITY_A` in `constants.ts`. -/
def THRESHOLD_A : ℕ := 6
/-- `AUTO_PRIORITY_THRESHOLDS.PRIORITY_B` in `constants.ts`. -/
def THRESHOLD_B : ℕ := 4
/-- `AUTO_PRIORITY_THRESHOLDS.PRIORITY_C` in `constants.ts`. -/
def THRESHOLD_C : ℕ := 2

/-- Embeds `AutoPriorityAssigner.assignPriorityBySubtaskCount`. -/
def assignPriorityBySubtaskCount (subtaskCount : ℕ) : TaskPriority :=
  if subtaskCount ≥ THRESHOLD_A then .A
  else if subtaskCount ≥ THRESHOLD_B then .B
  else if subtaskCount ≥ THRESHOLD_C then .C
  else .D

/-- `PRIORITY_TIME_RATIOS[p].timePerTask` in `constants.ts`. -/
def timePerTask : TaskPriority → ℕ
  | .A => 30
  | .B => 30
  | .C => 10
  | .D => 60

/-- Matches the regex fragment `\[[ x]\]` at the head of `l` (a
checkbox containing a space or a lowercase x — the char class `[ x]`
carries no `i` flag, so an uppercase X does not match). -/
def checkboxAt (l : List Char) : Bool :=
  match l with
  | a :: d :: e :: _ => a = '[' && e = ']' && (d = ' ' || d = 'x')
  | _ => false

/-- Matches the regex fragment `[-*]\s+\[[ x]\]` at the head of `l`
(bullet, at least one whitespace, checkbox).  The surrounding
alternations are prefix-disjoint, so the greedy deterministic scan is
exactly the regex behaviour. -/
def matchBulletSpaceCheckbox (l : List Char) : Bool :=
  match l with
  | b :: c :: rest =>
    (b = '-' || b = '*') && isJsWhitespace c &&
      checkboxAt ((c :: rest).dropWhile isJsWhitespace)
  | _ => false

/-- Embeds `EnhancedTodoParser.isTodoLine`, i.e. the test
`/^\s*[-*]\s+\[[ x]\]/.test(line)`. -/
def isTodoLine (l : List Char) : Bool :=
  matchBulletSpaceCheckbox (l.dropWhile isJsWhitespace)

/-- The subtask-line test of `AutoPriorityAssigner.parseSubtasks`, i.e.
`line.match(/^\s+[-*]\s+\[[ x]\]/)` as a Boolean: at least one leading
whitespace character, then bullet + checkbox. -/
def isIndentedSubtaskLine (l : List Char) : Bool :=
  match l with
  | [] => false
  | c :: _ => isJsWhitespace c && matchBulletSpaceCheckbox (l.dropWhile isJsWhitespace)

/-- Embeds `line.replace(/^\s*[-*]\s*\[[x ]\]\s*/i, '')`: strip the
bullet/checkbox marker when it matches, otherwise return the line
unchanged.  Note the case-insensitive flag (X accepted) and the `\s*`
(zero or more) between bullet and bracket, both unlike `isTodoLine`. -/
def stripTodoMarker (l : List Char) : List Char :=
  match l.dropWhile isJsWhitespace with
  | b :: rest =>
    if b = '-' || b = '*' then
      match rest.dropWhile isJsWhitespace with
      | '[' :: d :: ']' :: tail =>
        if d = ' ' || d = 'x' || d = 'X' then tail.dropWhile isJsWhitespace else l
      | _ => l
    else l
  | [] => l

/-- The scan loop of `AutoPriorityAssigner.parseSubtasks`: consume
indented subtask lines (trimmed), skip blank lines, stop at the first
other line. -/
def collectSubtaskLines : List (List Char) → List (List Char)
  | [] => []
  | l :: rest =>
    if isIndentedSubtaskLine l then trimStr l :: collectSubtaskLines rest
    else if (trimStr l).isEmpty then collectSubtaskLines rest
    else []

/-- Embeds `AutoPriorityAssigner.parseSubtasks`. -/
def parseSubtasks (content : List Char) (startLine : ℕ) : List (List Char) :=
  collectSubtaskLines ((splitLines content).drop (startLine + 1))

/-- Keyword tables of `AutoPriorityAssigner.calculateSubtaskComplexity`. -/
def simpleActionWords : List (List Char) :=
  ["check", "verify", "confirm", "send", "email", "call", "read"].map String.data

/-- Editing verbs (+1). -/
def editingWords : List (List Char) :=
  ["update", "fix", "edit", "write", "create", "add", "remove"].map String.data

/-- Build verbs (+2). -/
def buildWords : List (List Char) :=
  ["design", "implement", "develop", "analyze", "research", "build"].map String.data

/-- Advanced verbs (+3). -/
def advancedWords : List (List Char) :=
  ["architect", "optimize", "refactor", "integrate", "deploy"].map String.data

/-- Embeds `AutoPriorityAssigner.calculateSubtaskComplexity` (1–5 scale). -/
def calculateSubtaskComplexity (subtaskTitle : List Char) : ℕ :=
  let title := lowerStr subtaskTitle
  if startsWithAny title simpleActionWords then 1
  else
    let c1 := 1 + (if containsAny title editingWords then 1 else 0)
    let c2 := c1 + (if containsAny title buildWords then 2 else 0)
    let c3 := c2 + (if containsAny title advancedWords then 3 else 0)
    let c4 := c3 + (if strContains title "multiple".data || strContains title "various".data ||
                       strContains title "several".data then 1 else 0)
    let c5 := c4 + (if strContains title "complex".data || strContains title "advanced".data ||
                       strContains title "comprehensive".data then 1 else 0)
    min c5 5

/-- The `SubTask` interface of `EnhancedTodoItem.ts`. -/
structure SubTask where
  id : List Char
  title : List Char
  isCompleted : Bool
  parentTaskId : List Char
  complexity : ℕ
deriving DecidableEq, Repr, Inhabited

/-- Decimal digit character. -/
def digitChar (n : ℕ) : Char := Char.ofNat (48 + n)

/-- Base-36 digit character (0-9 then a-z), as produced by
`Number.prototype.toString(36)`. -/
def digit36 (n : ℕ) : Char :=
  if n < 10 then digitChar n else Char.ofNat (97 + (n - 10))

/-- Fuel-driven base-10 rendering (structural, so it reduces in the kernel). -/
def natToStrAux : ℕ → ℕ → List Char
  | 0, _ => []
  | fuel + 1, n => if n < 10 then [digitChar n] else natToStrAux fuel (n / 10) ++ [digitChar (n % 10)]

/-- Embeds JavaScript number-to-string for a natural number. -/
def natToStr (n : ℕ) : List Char := natToStrAux (n + 1) n

/-- Fuel-driven base-36 rendering. -/
def natToBase36Aux : ℕ → ℕ → List Char
  | 0, _ => []
  | fuel + 1, n => if n < 36 then [digit36 n] else natToBase36Aux fuel (n / 36) ++ [digit36 (n % 36)]

/-- Embeds `n.toString(36)` for a natural number. -/
def natToBase36 (n : ℕ) : List Char := natToBase36Aux (n + 1) n

/-- Embeds `AutoPriorityAssigner.parseSubtasksWithComplexity`. -/
def parseSubtasksWithComplexity (content : List Char) (startLine : ℕ) : List SubTask :=
  (parseSubtasks content startLine).enum.map fun p =>
    { id := "subtask_".data ++ natToStr startLine ++ "_".data ++ natToStr p.1
      title := trimStr (stripTodoMarker p.2)
      isCompleted := strContains p.2 "[x]".data || strContains p.2 "[X]".data
      parentTaskId := []
      complexity := calculateSubtaskComplexity p.2 }

/-- Character class `[\w\/\-]` of the tag regex. -/
def isTagChar (c : Char) : Bool := isWordChar c || c = '/' || c = '-'

/-- Embeds `content.match(/#[\w\/\-]+/g)`: all non-overlapping tag tokens,
left to right.  Fuel-driven so it reduces in the kernel; the fuel (the
input length) dominates every step. -/
def extractTagsAux : ℕ → List Char → List (List Char)
  | 0, _ => []
  | _, [] => []
  | fuel + 1, c :: rest =>
    if c = '#' then
      let body := rest.takeWhile isTagChar
      if body.isEmpty then extractTagsAux fuel rest
      else ('#' :: body) :: extractTagsAux fuel (rest.drop body.length)
    else extractTagsAux fuel rest

/-- Embeds `EnhancedTodoParser.extractTags`. -/
def extractTags (l : List Char) : List (List Char) := extractTagsAux l.length l

/-- Embeds `content.replace(/#[\w\/\-]+/g, '')`. -/
def removeTagsAux : ℕ → List Char → List Char
  | 0, l => l
  | _, [] => []
  | fuel + 1, c :: rest =>
    if c = '#' then
      let body := rest.takeWhile isTagChar
      if body.isEmpty then c :: removeTagsAux fuel rest
      else removeTagsAux fuel (rest.drop body.length)
    else c :: removeTagsAux fuel rest

/-- Tag removal at full fuel. -/
def removeTags (l : List Char) : List Char := removeTagsAux l.length l

/-- Uppercased priority letter recognizer (`([ABCD])` with `/i`). -/
def priorityLetter? (c : Char) : Option TaskPriority :=
  if c = 'A' || c = 'a' then some .A
  else if c = 'B' || c = 'b' then some .B
  else if c = 'C' || c = 'c' then some .C
  else if c = 'D' || c = 'd' then some .D
  else none

/-- Embeds `line.match(/#priority\/([ABCD])/i)`: leftmost occurrence of the
case-insensitive literal `#priority/` immediately followed by a priority
letter; returns the uppercased letter. -/
def findPriorityFormTag : List Char → Option TaskPriority
  | [] => none
  | c :: rest =>
    if lowerStr ((c :: rest).take 10) = "#priority/".data then
      match rest.drop 9 with
      | d :: _ =>
        match priorityLetter? d with
        | some p => some p
        | none => findPriorityFormTag rest
      | [] => findPriorityFormTag rest
    else findPriorityFormTag rest

/-- Embeds `line.match(/#([ABCD])(?!\w)/i)`: leftmost `#` followed by a
priority letter that is not immediately followed by a word character. -/
def findBareTag : List Char → Option TaskPriority
  | [] => none
  | c :: rest =>
    if c = '#' then
      match rest with
      | d :: rest2 =>
        match priorityLetter? d with
        | some p =>
          if (match rest2 with
              | [] => true
              | e :: _ => !isWordChar e) then some p
          else findBareTag rest
        | none => findBareTag rest
      | [] => findBareTag rest
    else findBareTag rest

/-- Embeds `EnhancedTodoParser.extractManualPriority`: the `#priority/x`
form is checked first and wins whenever present; only otherwise is the
bare `#x` form consulted. -/
def extractManualPriority (l : List Char) : Option TaskPriority :=
  match findPriorityFormTag l with
  | some p => some p
  | none => findBareTag l

/-- The `TodoItemStatus` enum of `constants.ts`. -/
inductive TodoItemStatus
  | Todo
  | Done
deriving DecidableEq, Repr, Inhabited

/-- The `ParsedTodoData` interface of `EnhancedTodoParser.ts` (fields the
core populates for a single line). -/
structure ParsedTodoData where
  title : List Char
  description : List Char
  status : TodoItemStatus
  tags : List (List Char)
  startIndex : ℤ
  length : ℕ
deriving DecidableEq, Repr

/-- Embeds `String.prototype.join('\n')` over split parts. -/
def joinLines (ls : List (List Char)) : List Char :=
  (ls.intersperse ['\n']).flatten

/-- Embeds `EnhancedTodoParser.parseBasicTodoData`.  `startIndex` is
`line.indexOf(trimmedLine)` (with `-1` for no occurrence, which cannot
happen for a trimmed substring). -/
def parseBasicTodoData (line : List Char) : ParsedTodoData :=
  let trimmedLine := trimStr line
  let startIndex : ℤ :=
    match strIndexOf? line trimmedLine with
    | some i => (i : ℤ)
    | none => -1
  let isCompleted := strContains (lowerStr trimmedLine) "[x]".data
  let status := if isCompleted then TodoItemStatus.Done else TodoItemStatus.Todo
  let content := stripTodoMarker trimmedLine
  let tags := extractTags content
  let cleanContent := trimStr (removeTags content)
  let parts := splitLines cleanContent
  let title := trimStr (parts.headD [])
  let description := trimStr (joinLines (parts.drop 1))
  { title, description, status, tags, startIndex, length := line.length }

/-- The invocation clock: `ms` models `Date.now()` and `today` models the
current calendar day used by luxon's `hasSame(DateTime.now(), 'day')`. -/
structure Clock where
  ms : ℕ
  today : List Char
deriving DecidableEq, Repr

/-- Wrap an integer to 32-bit two's complement (JavaScript `ToInt32`, the
coercion applied by `<<` and `&`). -/
def toInt32 (z : ℤ) : ℤ := (z + 2 ^ 31).emod (2 ^ 32) - 2 ^ 31

/-- Embeds `EnhancedTodoParser.simpleHash`:
`hash = ((hash << 5) - hash) + charCode; hash = hash & hash`. -/
def simpleHash (s : List Char) : ℤ :=
  s.foldl (fun h c => toInt32 (toInt32 (h * 32) - h + c.toNat)) 0

/-- Embeds `EnhancedTodoParser.generateTodoId`:
`todo_<base36 |hash|>_<line>_<Date.now()>`. -/
def generateTodoId (filePath : List Char) (lineNumber : ℕ) (now : Clock) : List Char :=
  "todo_".data ++ natToBase36 (simpleHash filePath).natAbs ++ "_".data ++
    natToStr lineNumber ++ "_".data ++ natToStr now.ms

/-- The `EnhancedTodoItem` class state (the fields the core populates;
presentation-only fields are omitted). -/
structure EnhancedTodoItem where
  id : List Char
  title : List Char
  description : List Char
  priority : TaskPriority
  subtasks : List SubTask
  subtaskCount : ℕ
  isAutoPriority : Bool
  allocatedTime : ℕ
  remainingTime : ℕ
  estimatedTime : ℕ
  assignedDate : Option (List Char)
  originalAssignedDate : Option (List Char)
  rescheduleCount : ℕ
  isAssignedToday : Bool
  needsRescheduleWarning : Bool
  parentTaskId : Option (List Char)
  childTaskIds : List (List Char)
  tags : List (List Char)
  status : TodoItemStatus
  isCompleted : Bool
  createdDate : ℕ
  sourceFilePath : List Char
  lineNumber : ℕ
  startIndex : ℤ
  length : ℕ
deriving DecidableEq, Repr, Inhabited

/-- Embeds `EnhancedTodoItem.calculateAllocatedTime` (the constructor's own
duplicate of the time table). -/
def calculateAllocatedTime : TaskPriority → ℕ
  | .A => 30
  | .B => 30
  | .C => 10
  | .D => 60

/-- Embeds the `EnhancedTodoItem` constructor. -/
def mkEnhancedTodoItem (id title description : List Char) (priority : TaskPriority)
    (sourceFilePath : List Char) (lineNumber : ℕ) (startIndex : ℤ) (length : ℕ)
    (status : TodoItemStatus) (subtasks : List SubTask) (isAutoPriority : Bool)
    (now : Clock) : EnhancedTodoItem :=
  { id, title, description, priority
    subtasks
    subtaskCount := subtasks.length
    isAutoPriority
    allocatedTime := calculateAllocatedTime priority
    remainingTime := calculateAllocatedTime priority
    estimatedTime := calculateAllocatedTime priority
    assignedDate := none
    originalAssignedDate := none
    rescheduleCount := 0
    isAssignedToday := false
    needsRescheduleWarning := false
    parentTaskId := none
    childTaskIds := []
    tags := []
    status
    isCompleted := status = TodoItemStatus.Done
    createdDate := now.ms
    sourceFilePath, lineNumber, startIndex, length }

/-- Embeds `EnhancedTodoItem.updatePriority`. -/
def updatePriority (t : EnhancedTodoItem) (newPriority : TaskPriority)
    (isManual : Bool) : EnhancedTodoItem :=
  { t with
    priority := newPriority
    isAutoPriority := !isManual
    allocatedTime := calculateAllocatedTime newPriority
    remainingTime := calculateAllocatedTime newPriority }

/-- The value handed to `assignToDate` at its two call sites: a luxon
`DateTime` (modelled by its calendar-day string) from `extractDueDate`,
or the raw filename-derived string from `extractDateFromDailyNote`. -/
inductive JsDate
  | luxon (day : List Char)
  | raw (s : List Char)
deriving DecidableEq, Repr

-- Equality is decidable on Except results so concrete parses can be
-- evaluated in proofs.
deriving instance DecidableEq for Except

/-- Embeds `EnhancedTodoItem.assignToDate`.  On a luxon `DateTime`
(modelled by its calendar-day string) `startOf('day')` is the identity
and `hasSame(DateTime.now(), 'day')` is string equality with the clock's
day.  On a raw string — what the daily-note branch of the parser passes —
`date.startOf` is not a function, so the call throws a TypeError,
modelled as `Except.error ()`. -/
def assignToDate (t : EnhancedTodoItem) (date : JsDate) (now : Clock) :
    Except Unit EnhancedTodoItem :=
  match date with
  | .raw _ => .error ()
  | .luxon day =>
    let t1 := { t with assignedDate := some day, isAssignedToday := day = now.today }
    .ok (if t1.originalAssignedDate.isNone then
      { t1 with originalAssignedDate := t1.assignedDate }
    else t1)

/-- Embeds `Array.prototype.findIndex` (as an `Option` instead of `-1`). -/
def jsFindIndex {α : Type} (p : α → Bool) : List α → Option ℕ
  | [] => none
  | a :: l => if p a then some 0 else (jsFindIndex p l).map (· + 1)

/-- Embeds `EnhancedTodoItem.removeSubtask` (`findIndex` + `splice(i, 1)`),
returning the updated record and the Boolean result. -/
def removeSubtask (t : EnhancedTodoItem) (subtaskId : List Char) :
    EnhancedTodoItem × Bool :=
  match jsFindIndex (fun st => st.id = subtaskId) t.subtasks with
  | some i =>
    let subtasks := t.subtasks.take i ++ t.subtasks.drop (i + 1)
    ({ t with subtasks, subtaskCount := subtasks.length }, true)
  | none => (t, false)

/-- Character class `[\d\-\/]` of the date-tag capture. -/
def isDateTagChar (c : Char) : Bool := c.isDigit || c = '-' || c = '/'

/-- Embeds `content.match(new RegExp('#([\d\-\/]+)'))` under the default
`#%date%` tag template: first `#` followed by a non-empty run of
date characters, returning the captured run. -/
def findDateTagCapture : List Char → Option (List Char)
  | [] => none
  | c :: rest =>
    if c = '#' then
      let body := rest.takeWhile isDateTagChar
      if body.isEmpty then findDateTagCapture rest else some body
    else findDateTagCapture rest

/-- Model of the external luxon library test `DateTime.fromISO(s).isValid`,
simplified to full `YYYY-MM-DD` day strings with month 1–12 and day 1–31
(the only shape the write-back path produces).  All theorems about the
parser erase the date-derived fields, so only purity and determinism of
this model matter. -/
def isValidISODate (s : List Char) : Bool :=
  match s with
  | [y1, y2, y3, y4, '-', m1, m2, '-', d1, d2] =>
    [y1, y2, y3, y4, m1, m2, d1, d2].all Char.isDigit &&
    (let m := (m1.toNat - 48) * 10 + (m2.toNat - 48)
     let d := (d1.toNat - 48) * 10 + (d2.toNat - 48)
     decide (1 ≤ m ∧ m ≤ 12 ∧ 1 ≤ d ∧ d ≤ 31))
  | _ => false

/-- Ten-character shape `\d{4}-\d{2}-\d{2}` at the head of `l`, returning
the matched characters. -/
def takeYMD? (l : List Char) : Option (List Char) :=
  match l.take 10 with
  | [y1, y2, y3, y4, '-', m1, m2, '-', d1, d2] =>
    if [y1, y2, y3, y4, m1, m2, d1, d2].all Char.isDigit then
      some [y1, y2, y3, y4, '-', m1, m2, '-', d1, d2]
    else none
  | _ => none

/-- Embeds `content.match(/\b(\d{4}-\d{2}-\d{2})\b/)`: leftmost occurrence
with word boundaries on both sides (`prev` is the character before the
current position, if any). -/
def findStandaloneDate (prev : Option Char) : List Char → Option (List Char)
  | [] => none
  | c :: rest =>
    let boundaryBefore :=
      match prev with
      | none => true
      | some p => !isWordChar p
    match
      (if boundaryBefore then
        match takeYMD? (c :: rest) with
        | some d =>
          (match (c :: rest).drop 10 with
           | [] => some d
           | e :: _ => if isWordChar e then none else some d)
        | none => none
      else none) with
    | some d => some d
    | none => findStandaloneDate (some c) rest

/-- Embeds `EnhancedTodoParser.extractDueDate`: try the configured
date-tag capture first, then a standalone `YYYY-MM-DD` token; an invalid
capture falls through, an invalid standalone match yields nothing.  The
configuration (the `dateTagFormat` template compiled to a RegExp) is
abstracted as the capture function `dtc` it induces; the default
`'#%date%'` template induces `findDateTagCapture`. -/
def extractDueDate (dtc : List Char → Option (List Char))
    (content : List Char) : Option (List Char) :=
  let standalone :=
    match findStandaloneDate none content with
    | some s => if isValidISODate s then some s else none
    | none => none
  match dtc content with
  | some s => if isValidISODate s then some s else standalone
  | none => standalone

/-- Embeds `filename.replace('.md', '')` (string-pattern `replace`
replaces only the first occurrence). -/
def replaceFirstStr (s pat : List Char) : List Char :=
  match strIndexOf? s pat with
  | some i => s.take i ++ s.drop (i + pat.length)
  | none => s

/-- Embeds `filePath.split('/').pop()?.replace('.md', '') || ''`. -/
def dailyNoteName (fp : List Char) : List Char :=
  replaceFirstStr ((fp.splitOn '/').getLastD []) ".md".data

/-- Shape test `^\d{4}-\d{2}-\d{2}$`. -/
def matchesYMD (f : List Char) : Bool :=
  match f with
  | [a, b, c, d, '-', e, g, '-', h, i] => [a, b, c, d, e, g, h, i].all Char.isDigit
  | _ => false

/-- Shape test `^\d{2}-\d{2}-\d{4}$`. -/
def matchesMDY (f : List Char) : Bool :=
  match f with
  | [a, b, '-', c, d, '-', e, g, h, i] => [a, b, c, d, e, g, h, i].all Char.isDigit
  | _ => false

/-- Shape test `^\d{4}\d{2}\d{2}$` (eight digits). -/
def matchesYMD8 (f : List Char) : Bool :=
  f.length = 8 && f.all Char.isDigit

/-- Embeds `EnhancedTodoParser.isDailyNote`. -/
def isDailyNote (fp : List Char) : Bool :=
  let f := dailyNoteName fp
  matchesYMD f || matchesMDY f || matchesYMD8 f

/-- Embeds `EnhancedTodoParser.extractDateFromDailyNote`. -/
def extractDateFromDailyNote (fp : List Char) : Option (List Char) :=
  let f := dailyNoteName fp
  if matchesYMD f then some f
  else if matchesMDY f then
    match f with
    | [m1, m2, '-', d1, d2, '-', y1, y2, y3, y4] =>
      some [y1, y2, y3, y4, '-', m1, m2, '-', d1, d2]
    | _ => none
  else if matchesYMD8 f then
    some (f.take 4 ++ '-' :: (f.drop 4).take 2 ++ '-' :: (f.drop 6).take 2)
  else none

/-- Embeds `EnhancedTodoParser.parseEnhancedTodoLine` (the `async`
wrapper and the host-side `TFile` are plumbing; the clock stands for
`Date.now()` / `DateTime.now()`).  `.ok none` is the `null` return for a
non-task line; `.error ()` is a thrown TypeError, which happens when the
daily-note branch hands `extractDateFromDailyNote`'s raw string to
`assignToDate`. -/
def parseEnhancedTodoLine (dtc : List Char → Option (List Char))
    (line filePath : List Char) (lineNumber : ℕ)
    (fileContent : List Char) (now : Clock) : Except Unit (Option EnhancedTodoItem) :=
  if isTodoLine line = true then
    let basicData := parseBasicTodoData line
    let subtasks0 := parseSubtasksWithComplexity fileContent lineNumber
    let subtaskCount := subtasks0.length
    let autoPriority := assignPriorityBySubtaskCount subtaskCount
    let manualPriority := extractManualPriority line
    let finalPriority := manualPriority.getD autoPriority
    let isAutoPriority := manualPriority.isNone
    let todoId := generateTodoId filePath lineNumber now
    let subtasks := subtasks0.map fun st => { st with parentTaskId := todoId }
    let todo0 := mkEnhancedTodoItem todoId basicData.title basicData.description
        finalPriority filePath lineNumber basicData.startIndex basicData.length
        basicData.status subtasks isAutoPriority now
    let todo1 := { todo0 with tags := basicData.tags }
    match extractDueDate dtc line with
    | some d => (assignToDate todo1 (JsDate.luxon d) now).map some
    | none =>
      if isDailyNote filePath then
        match extractDateFromDailyNote filePath with
        | some d => (assignToDate todo1 (JsDate.raw d) now).map some
        | none => .ok (some todo1)
      else .ok (some todo1)
  else .ok none

/-- The line loop of `parseEnhancedTodosInFile`: parse each enumerated
line, keep the returned records in order, and propagate a thrown error
(there is no try/catch in the source, so a throw rejects the whole
parse). -/
def parseLinesGo (dtc : List Char → Option (List Char)) (filePath content : List Char)
    (now : Clock) : List (ℕ × List Char) → Except Unit (List EnhancedTodoItem)
  | [] => .ok []
  | p :: ps =>
    if isTodoLine p.2 then
      match parseEnhancedTodoLine dtc p.2 filePath p.1 content now with
      | .error e => .error e
      | .ok none => parseLinesGo dtc filePath content now ps
      | .ok (some t) => (parseLinesGo dtc filePath content now ps).map (t :: ·)
    else parseLinesGo dtc filePath content now ps

/-- Embeds `EnhancedTodoParser.parseEnhancedTodosInFile`, the document
parse entry point. -/
def parseEnhancedTodosInFile (dtc : List Char → Option (List Char))
    (filePath content : List Char) (now : Clock) :
    Except Unit (List EnhancedTodoItem) :=
  parseLinesGo dtc filePath content now (splitLines content).enum

/-- Issue kinds of `TaskSuitabilityIssue`. -/
inductive IssueType
  | TOO_COMPLEX
  | INCONSISTENT_COMPLEXITY
  | TIME_MISMATCH
deriving DecidableEq, Repr

/-- Issue severities of `TaskSuitabilityIssue`. -/
inductive IssueSeverity
  | LOW
  | MEDIUM
  | HIGH
deriving DecidableEq, Repr

/-- The `TaskSuitabilityIssue` interface. -/
structure TaskSuitabilityIssue where
  type : IssueType
  severity : IssueSeverity
  message : List Char
  suggestion : List Char
deriving DecidableEq, Repr

/-- The recommended-action values `'required' | 'suggested' | 'none'`. -/
inductive RecommendedAction
  | required
  | suggested
  | none
deriving DecidableEq, Repr

/-- The `TaskSuitabilityResult` interface. -/
structure TaskSuitabilityResult where
  isProblematic : Bool
  issues : List TaskSuitabilityIssue
  recommendedAction : RecommendedAction
deriving DecidableEq, Repr

/-- The complexity-keyword table of
`TaskSuitabilityAnalyzer.isTooComplexForSingleTask`. -/
def complexityKeywords : List (List Char) :=
  ["research", "analyze", "design", "implement", "test", "deploy",
   "multiple", "various", "several", "comprehensive", "complete",
   "system", "platform", "architecture", "infrastructure"].map String.data

/-- Embeds `TaskSuitabilityAnalyzer.isTooComplexForSingleTask`. -/
def isTooComplexForSingleTask (t : EnhancedTodoItem) : Bool :=
  if t.subtaskCount > 10 then true
  else
    let content := lowerStr (t.title ++ " ".data ++ t.description)
    (complexityKeywords.filter (fun k => strContains content k)).length ≥ 3

/-- `Math.max` over a score list (spread call on a non-empty array). -/
def maxScore (l : List ℕ) : ℕ := l.foldl max 0

/-- `Math.min` over a score list. -/
def minScore : List ℕ → ℕ
  | [] => 0
  | h :: t => t.foldl min h

/-- Embeds `TaskSuitabilityAnalyzer.hasInconsistentSubtaskComplexity`. -/
def hasInconsistentSubtaskComplexity (t : EnhancedTodoItem) : Bool :=
  if t.subtasks.length < 3 then false
  else
    let scores := t.subtasks.map (·.complexity)
    maxScore scores - minScore scores > 3

/-- Embeds `TaskSuitabilityAnalyzer.estimateTaskTime`. -/
def estimateTaskTime (t : EnhancedTodoItem) : ℕ :=
  if t.subtasks.length = 0 then 30
  else t.subtasks.foldl (fun total st => total + st.complexity * 10) 0

/-- Embeds `TaskSuitabilityAnalyzer.exceedsTimeAllocationLimits`
(`estimatedTime > allocation * 1.5`): the doubles involved are exact at
these magnitudes, so the comparison is the rational inequality
`estimatedTime > allocation * 3/2`, written cross-multiplied by 2 to stay
in ℕ. -/
def exceedsTimeAllocationLimits (t : EnhancedTodoItem) : Bool :=
  let allocation := timePerTask t.priority
  let estimatedTime := estimateTaskTime t
  decide (2 * estimatedTime > 3 * allocation)

/-- Embeds `TaskSuitabilityAnalyzer.getRecommendedAction`. -/
def getRecommendedAction (issues : List TaskSuitabilityIssue) : RecommendedAction :=
  if (issues.filter (fun i => i.severity = IssueSeverity.HIGH)).length > 0 then .required
  else if issues.length > 0 then .suggested
  else .none

/-- Embeds `TaskSuitabilityAnalyzer.analyzeTaskSuitability`. -/
def analyzeTaskSuitability (t : EnhancedTodoItem) : TaskSuitabilityResult :=
  let issues : List TaskSuitabilityIssue :=
    (if isTooComplexForSingleTask t then
      [{ type := .TOO_COMPLEX, severity := .HIGH
         message := "Task appears too complex for a single priority assignment".data
         suggestion := "Break into smaller, more manageable subtasks".data }]
     else []) ++
    (if hasInconsistentSubtaskComplexity t then
      [{ type := .INCONSISTENT_COMPLEXITY, severity := .MEDIUM
         message := "Subtasks vary greatly in complexity".data
         suggestion := "Group similar complexity subtasks or split complex ones".data }]
     else []) ++
    (if exceedsTimeAllocationLimits t then
      [{ type := .TIME_MISMATCH, severity := .HIGH
         message := "Task time requirements don't match priority allocation".data
         suggestion := "Adjust subtasks to fit priority time blocks".data }]
     else [])
  { isProblematic := issues.length > 0
    issues
    recommendedAction := getRecommendedAction issues }

/-- The `TaskBreakdownSuggestion` interface. -/
structure TaskBreakdownSuggestion where
  title : List Char
  priority : TaskPriority
  subtasks : List (List Char)
  estimatedTime : ℕ
  reasoning : List Char
deriving DecidableEq, Repr, Inhabited

/-- Embeds `TaskSuitabilityAnalyzer.categorizeSubtask`: the seven
keyword categories tried in order, `General` otherwise. -/
def categorizeSubtask (title : List Char) : List Char :=
  let lowerTitle := lowerStr title
  if containsAny lowerTitle (["design", "wireframe", "mockup", "layout", "ui", "ux", "visual"].map String.data) then
    "Design".data
  else if containsAny lowerTitle (["implement", "code", "develop", "build", "create", "program"].map String.data) then
    "Implementation".data
  else if containsAny lowerTitle (["test", "verify", "check", "validate", "qa", "debug"].map String.data) then
    "Testing".data
  else if containsAny lowerTitle (["research", "analyze", "investigate", "study", "explore"].map String.data) then
    "Research".data
  else if containsAny lowerTitle (["document", "write", "update", "record", "note"].map String.data) then
    "Documentation".data
  else if containsAny lowerTitle (["plan", "organize", "schedule", "prepare", "setup"].map String.data) then
    "Planning".data
  else if containsAny lowerTitle (["deploy", "release", "publish", "launch", "install"].map String.data) then
    "Deployment".data
  else
    "General".data

/-- Insertion step of the `Map`-based grouping: append to an existing
group, or add a new group at the end (JavaScript `Map` preserves key
insertion order). -/
def insertGroup : List (List Char × List SubTask) → List Char → SubTask →
    List (List Char × List SubTask)
  | [], ty, st => [(ty, [st])]
  | (k, ms) :: rest, ty, st =>
    if k = ty then (k, ms ++ [st]) :: rest
    else (k, ms) :: insertGroup rest ty st

/-- Embeds `TaskSuitabilityAnalyzer.groupSubtasksByType`. -/
def groupSubtasksByType (subtasks : List SubTask) : List (List Char × List SubTask) :=
  subtasks.foldl (fun gs st => insertGroup gs (categorizeSubtask st.title) st) []

/-- Embeds `TaskSuitabilityAnalyzer.suggestPriorityForGroup`.  The
average `sum/count` is compared against the integer thresholds 4, 3, 2;
for `count > 0` the comparison `sum/count ≥ k` is exactly `sum ≥ k*count`
(the double rounding cannot cross an integer threshold at these
magnitudes), and for `count = 0` JavaScript's `NaN`-average fails every
comparison, yielding D. -/
def suggestPriorityForGroup (subtasks : List SubTask) : TaskPriority :=
  let sum := (subtasks.map (·.complexity)).sum
  let count := subtasks.length
  if count = 0 then .D
  else if sum ≥ 4 * count ∨ count ≥ 6 then .A
  else if sum ≥ 3 * count ∨ count ≥ 4 then .B
  else if sum ≥ 2 * count ∨ count ≥ 2 then .C
  else .D

/-- Embeds `TaskSuitabilityAnalyzer.suggestComplexityBasedBreakdown`. -/
def suggestComplexityBasedBreakdown (t : EnhancedTodoItem) : List TaskBreakdownSuggestion :=
  let highComplexity := t.subtasks.filter (fun st => st.complexity ≥ 4)
  let mediumComplexity := t.subtasks.filter (fun st => st.complexity ≥ 2 && st.complexity < 4)
  let lowComplexity := t.subtasks.filter (fun st => st.complexity < 2)
  (if highComplexity.length > 0 then
    [{ title := t.title ++ " - Complex Tasks".data
       priority := .A
       subtasks := highComplexity.map (·.title)
       estimatedTime := 30
       reasoning := natToStr highComplexity.length ++
         " high-complexity tasks requiring focused attention".data }]
   else []) ++
  (if mediumComplexity.length > 0 then
    let priority : TaskPriority := if mediumComplexity.length ≥ 4 then .B else .C
    [{ title := t.title ++ " - Standard Tasks".data
       priority
       subtasks := mediumComplexity.map (·.title)
       estimatedTime := timePerTask priority
       reasoning := natToStr mediumComplexity.length ++ " medium-complexity tasks".data }]
   else []) ++
  (if lowComplexity.length > 0 then
    [{ title := t.title ++ " - Quick Tasks".data
       priority := .C
       subtasks := lowComplexity.map (·.title)
       estimatedTime := 10
       reasoning := natToStr lowComplexity.length ++
         " simple tasks that can be done quickly".data }]
   else [])

/-- The category-grouping phase of `suggestBreakdown` (the source's local
`suggestions` constant): one suggestion per category group of at least
two members. -/
def categorySuggestions (t : EnhancedTodoItem) : List TaskBreakdownSuggestion :=
  (groupSubtasksByType t.subtasks).filterMap fun g =>
    if g.2.length ≥ 2 then
      let suggestedPriority := suggestPriorityForGroup g.2
      some { title := t.title ++ " - ".data ++ g.1
             priority := suggestedPriority
             subtasks := g.2.map (·.title)
             estimatedTime := timePerTask suggestedPriority
             reasoning := "Grouped ".data ++ natToStr g.2.length ++ " ".data ++
               lowerStr g.1 ++ " tasks".data }
    else none

/-- Embeds `TaskSuitabilityAnalyzer.suggestBreakdown`. -/
def suggestBreakdown (t : EnhancedTodoItem) : List TaskBreakdownSuggestion :=
  let suggestions := categorySuggestions t
  if suggestions.length = 0 ∧ t.subtasks.length > 6 then
    suggestions ++ suggestComplexityBasedBreakdown t
  else suggestions

/-- Embeds `TaskSuitabilityAnalyzer.autoFixSimpleIssues`, returning the
(possibly updated) record, the `fixed` flag and the change descriptions.
The priority message reads `task.priority` after the in-place update, so
both interpolations show the corrected tier, as in the source. -/
def autoFixSimpleIssues (t : EnhancedTodoItem) :
    EnhancedTodoItem × Bool × List (List Char) :=
  let correctPriority := assignPriorityBySubtaskCount t.subtaskCount
  let step1 : EnhancedTodoItem × Bool × List (List Char) :=
    if t.priority ≠ correctPriority ∧ t.isAutoPriority = true then
      let t1 := updatePriority t correctPriority false
      (t1, true,
        ["Updated priority from ".data ++ t1.priority.str ++ " to ".data ++
          correctPriority.str])
    else (t, false, [])
  let t1 := step1.1
  let estimatedTime := estimateTaskTime t1
  if ((t1.estimatedTime : ℤ) - (estimatedTime : ℤ)).natAbs > 10 then
    ({ t1 with estimatedTime := estimatedTime }, true,
      step1.2.2 ++ ["Updated estimated time to ".data ++ natToStr estimatedTime ++
        " minutes".data])
  else (t1, step1.2.1, step1.2.2)

/-- Start position of the leftmost bare-priority-tag match
(`/#([ABCD])(?!\w)/i`) — does the tag match at the head of `l`? -/
def bareAt (l : List Char) : Bool :=
  match l with
  | '#' :: d :: rest2 =>
    (priorityLetter? d).isSome &&
      (match rest2 with
       | [] => true
       | e :: _ => !isWordChar e)
  | _ => false

/-- Does `/#priority\/([ABCD])/i` match at the head of `l`? -/
def priorityFormAt (l : List Char) : Bool :=
  lowerStr (l.take 10) = "#priority/".data &&
    (match l.drop 10 with
     | d :: _ => (priorityLetter? d).isSome
     | [] => false)

/-- Index of the leftmost position where `p` holds of the suffix. -/
def firstIdxWhere (p : List Char → Bool) : List Char → Option ℕ
  | [] => none
  | c :: rest => if p (c :: rest) then some 0 else (firstIdxWhere p rest).map (· + 1)

/-- Number of leading whitespace characters (the line's indentation). -/
def indentWidth (l : List Char) : ℕ := (l.takeWhile isJsWhitespace).length

/-- The task-line pattern exactly as the claim words it: optional leading
whitespace, a `-` or `*` bullet, ONE space, then a bracketed checkbox
containing a space, a lowercase x or an uppercase X.  Stated from the
claim, for comparison with the source's `isTodoLine`. -/
def claimedTaskLine (l : List Char) : Bool :=
  match l.dropWhile isJsWhitespace with
  | b :: ' ' :: '[' :: d :: ']' :: _ =>
    (b = '-' || b = '*') && (d = ' ' || d = 'x' || d = 'X')
  | _ => false

/-- A fixed invocation clock for concrete evaluations. -/
def clock0 : Clock := ⟨0, []⟩

/-- The end-to-end example document of the claim (C2). -/
def vacationDoc : List Char :=
  ("- [ ] Plan vacation\n  - [ ] Book flights\n  - [ ] Reserve hotel\n" ++
   "  - [ ] Plan itinerary\n  - [ ] Research visa requirements").data

/-- A task line carrying a bare `#B` tag before a `#priority/A` tag (C5). -/
def prLine : List Char := "- [ ] task #B #priority/A".data

/-- A document whose task line is indented two spaces while the following
checkbox line is indented a single space (C4). -/
def doc4 : List Char := "  - [ ] a\n - [ ] b".data

/-- Subtask constructor for analyzer/breakdown fixtures. -/
def mkSub (title : String) (complexity : ℕ) : SubTask :=
  { id := [], title := title.data, isCompleted := false, parentTaskId := [], complexity }

/-- Seven subtasks in seven distinct lexical categories, one of high
complexity — drives the complexity-band fallback of the breakdown
engine into a singleton group (C7). -/
def breakTask : EnhancedTodoItem :=
  mkEnhancedTodoItem "i".data "T".data [] .B "f".data 0 0 0 .Todo
    [mkSub "design x" 4, mkSub "implement y" 2, mkSub "test z" 2,
     mkSub "research w" 2, mkSub "document v" 2, mkSub "plan u" 2,
     mkSub "deploy t" 2] true clock0

/-- Two design subtasks, giving one category group of size two (C7
witness). -/
def groupTask : EnhancedTodoItem :=
  mkEnhancedTodoItem "i".data "T".data [] .C "f".data 0 0 0 .Todo
    [mkSub "design a" 1, mkSub "design b" 1] true clock0

/-- A manually-prioritised task whose stored estimate matches the
analyzer's estimate (C8 witness). -/
def manualTask : EnhancedTodoItem :=
  mkEnhancedTodoItem "i".data "T".data [] .B "f".data 0 0 0 .Todo [] false clock0

/-- Pre-registered equality instances for the record projections used in
concrete parse evaluations (keeps instance search shallow). -/
instance : DecidableEq (ℕ × TaskPriority × Bool × ℕ × List ℕ) := by
  infer_instance

/-- Option layer over the record projection tuple. -/
instance : DecidableEq (Option (ℕ × TaskPriority × Bool × ℕ × List ℕ)) := by
  infer_instance

/-- Likewise for the analyzer projections. -/
instance : DecidableEq (ℕ × List IssueType × RecommendedAction) := by
  infer_instance

/-- Option layer over the analyzer projection tuple. -/
instance : DecidableEq (Option (ℕ × List IssueType × RecommendedAction)) := by
  infer_instance

/-- Clock-independent observation of a subtask: everything except
`parentTaskId`, which embeds the parent's `Date.now()`-based id. -/
def subCore (st : SubTask) : List Char × List Char × Bool × ℕ :=
  (st.id, st.title, st.isCompleted, st.complexity)

/-- Clock-independent view of a task record: every field except the
generated `id`, the `createdDate` timestamp, the today-relative
`isAssignedToday` flag, and the subtasks' `parentTaskId`. -/
structure CoreView where
  title : List Char
  description : List Char
  priority : TaskPriority
  subs : List (List Char × List Char × Bool × ℕ)
  subtaskCount : ℕ
  isAutoPriority : Bool
  allocatedTime : ℕ
  remainingTime : ℕ
  estimatedTime : ℕ
  assignedDate : Option (List Char)
  originalAssignedDate : Option (List Char)
  rescheduleCount : ℕ
  needsRescheduleWarning : Bool
  parentTaskId : Option (List Char)
  childTaskIds : List (List Char)
  tags : List (List Char)
  status : TodoItemStatus
  isCompleted : Bool
  sourceFilePath : List Char
  lineNumber : ℕ
  startIndex : ℤ
  length : ℕ

/-- Projection of a record onto its clock-independent view. -/
def coreView (t : EnhancedTodoItem) : CoreView :=
  { title := t.title, description := t.description, priority := t.priority
    subs := t.subtasks.map subCore
    subtaskCount := t.subtaskCount, isAutoPriority := t.isAutoPriority
    allocatedTime := t.allocatedTime, remainingTime := t.remainingTime
    estimatedTime := t.estimatedTime
    assignedDate := t.assignedDate, originalAssignedDate := t.originalAssignedDate
    rescheduleCount := t.rescheduleCount
    needsRescheduleWarning := t.needsRescheduleWarning
    parentTaskId := t.parentTaskId, childTaskIds := t.childTaskIds, tags := t.tags
    status := t.status, isCompleted := t.isCompleted
    sourceFilePath := t.sourceFilePath, lineNumber := t.lineNumber
    startIndex := t.startIndex, length := t.length }

/-- C1: for every subtask count the auto-assigned tier is monotone,
non-decreasing in the count with respect to D<C<B<A, and under the default
thresholds it returns B at 5 and A at 6. -/
theorem claim1_assignPriority_monotone (m n : ℕ) (h : m ≤ n) :
    prLevel (assignPriorityBySubtaskCount m) ≤ prLevel (assignPriorityBySubtaskCount n) ∧
    assignPriorityBySubtaskCount 5 = TaskPriority.B ∧
    assignPriorityBySubtaskCount 6 = TaskPriority.A := by
  refine ⟨?_, by decide, by decide⟩
  unfold assignPriorityBySubtaskCount THRESHOLD_A THRESHOLD_B THRESHOLD_C
  split_ifs <;> simp only [prLevel] <;> omega

/-- Witness for C1 at the concrete pair 3 ≤ 5. -/
theorem claim1_assignPriority_monotone_witness :
    prLevel (assignPriorityBySubtaskCount 3) ≤ prLevel (assignPriorityBySubtaskCount 5) ∧
    assignPriorityBySubtaskCount 5 = TaskPriority.B ∧
    assignPriorityBySubtaskCount 6 = TaskPriority.A :=
  claim1_assignPriority_monotone 3 5 (by decide)

/-- C2 (counterexample): parsing the vacation document does NOT yield
exactly one task record — the indented subtask lines also satisfy
`isTodoLine`, so five records are produced — and the first record's
subtask complexity scores are [1,1,1,3], not [2,2,2,3] (the checkbox
prefix keeps the simple/editing verb bands from matching as the claim
assumed). -/
theorem claim2_counterexample :
    (parseEnhancedTodosInFile findDateTagCapture "test.md".data vacationDoc clock0).map
      List.length = Except.ok 5 ∧
    ((parseEnhancedTodosInFile findDateTagCapture "test.md".data vacationDoc clock0).map
      (fun rs => rs.head?.map (fun r => r.subtasks.map (·.complexity)))) =
      Except.ok (some [1, 1, 1, 3]) := by
  constructor
  · decide
  · decide

/-- C2 (amended): the vacation document yields five task records (one per
checkbox line); the first has subtaskCount 4, auto tier B, allocatedTime
30, subtask complexity scores [1,1,1,3] and estimated time 60, and its
suitability analysis reports exactly one TimeMismatch issue with
recommended action required. -/
theorem claim2_vacation_example :
    (parseEnhancedTodosInFile findDateTagCapture "test.md".data vacationDoc clock0).map
      List.length = Except.ok 5 ∧
    ((parseEnhancedTodosInFile findDateTagCapture "test.md".data vacationDoc clock0).map
      (fun rs => rs.head?.map (fun r =>
        (r.subtaskCount, r.priority, r.isAutoPriority, r.allocatedTime,
         r.subtasks.map (·.complexity))))) =
      Except.ok (some (4, TaskPriority.B, true, 30, [1, 1, 1, 3])) ∧
    ((parseEnhancedTodosInFile findDateTagCapture "test.md".data vacationDoc clock0).map
      (fun rs => rs.head?.map (fun r =>
        (estimateTaskTime r,
         (analyzeTaskSuitability r).issues.map (·.type),
         (analyzeTaskSuitability r).recommendedAction)))) =
      Except.ok (some (60, [IssueType.TIME_MISMATCH], RecommendedAction.required)) := by
  refine ⟨?_, ?_, ?_⟩ <;> decide

/-- C3 (counterexample): `- [X] title` satisfies the claimed task-line
pattern (checkbox content space/x/X after one space) but the extractor's
`isTodoLine` rejects it — the regex char class `[ x]` has no uppercase X
and no `i` flag. -/
theorem claim3_counterexample :
    claimedTaskLine "- [X] title".data = true ∧
    isTodoLine "- [X] title".data = false := by
  constructor
  · decide
  · decide

/-- C4 (counterexample): in a document whose task line is indented two
spaces, the scan consumes a following checkbox line indented only one
space — the code requires absolute indentation (`^\s+`), not indentation
relative to the task line. -/
theorem claim4_counterexample :
    parseSubtasks doc4 0 = ["- [ ] b".data] ∧
    indentWidth (((splitLines doc4).drop 1).headD []) <
      indentWidth ((splitLines doc4).headD []) := by
  constructor
  · decide
  · decide

/-- C5 (counterexample): in `- [ ] task #B #priority/A` the bare `#B` tag
matches at index 11, before the `#priority/A` match at index 14, so the
claim's leftmost-match rule would pick B; the code checks the
`#priority/` form first and returns A. -/
theorem claim5_counterexample :
    firstIdxWhere bareAt prLine = some 11 ∧
    firstIdxWhere priorityFormAt prLine = some 14 ∧
    findBareTag prLine = some TaskPriority.B ∧
    extractManualPriority prLine = some TaskPriority.A := by
  refine ⟨?_, ?_, ?_, ?_⟩ <;> decide

/-- C9 (counterexample): two invocations of the parse entry point on the
same text and configuration but at different clock readings produce
different record lists — `generateTodoId` embeds `Date.now()` in the id. -/
theorem claim9_counterexample :
    parseEnhancedTodosInFile findDateTagCapture "a.md".data "- [ ] x".data ⟨0, []⟩ ≠
    parseEnhancedTodosInFile findDateTagCapture "a.md".data "- [ ] x".data ⟨1, []⟩ := by
  decide

/-- C7 (counterexample): on a task with seven subtasks in seven distinct
categories, one of complexity 4, no category group reaches size 2, the
complexity-band fallback fires, and its first suggestion contains a
single subtask title — the engine does emit a group of size 1. -/
theorem claim7_counterexample :
    (suggestBreakdown breakTask).map (fun s => s.subtasks.length) = [1, 6] := by
  decide

/-- C4 (amended): the scan result is exactly the trimmed matching lines of
the longest prefix (after the task line) consisting of subtask-pattern or
blank lines — consumption is by the absolute-indentation pattern, blank
lines are skipped without terminating, the first other line terminates,
and document order is preserved. -/
theorem claim4_parseSubtasks_characterization (content : List Char) (i : ℕ) :
    parseSubtasks content i =
      ((((splitLines content).drop (i + 1)).takeWhile
          (fun l => isIndentedSubtaskLine l || (trimStr l).isEmpty)).filter
        isIndentedSubtaskLine).map trimStr := by
  unfold parseSubtasks
  generalize (splitLines content).drop (i + 1) = ls
  induction ls with
  | nil => rfl
  | cons l rest ih =>
    by_cases h1 : isIndentedSubtaskLine l
    · simp [collectSubtaskLines, h1, List.takeWhile_cons, List.filter_cons, ih]
    · by_cases h2 : (trimStr l).isEmpty
      · simp [collectSubtaskLines, h1, h2, List.takeWhile_cons, List.filter_cons, ih]
      · simp [collectSubtaskLines, h1, h2, List.takeWhile_cons]

/-- C8: on a manually-prioritised task (isAutoPriority false) whose stored
estimate is within 10 minutes of the analyzer's estimate, auto-fix is a
no-op returning fixed=false with no changes and the record untouched; and
on every manually-prioritised task it never changes the tier or its time
allocation. -/
theorem claim8_autofix_manual (t : EnhancedTodoItem)
    (h : t.isAutoPriority = false) :
    (((t.estimatedTime : ℤ) - (estimateTaskTime t : ℤ)).natAbs ≤ 10 →
      autoFixSimpleIssues t = (t, false, [])) ∧
    (autoFixSimpleIssues t).1.priority = t.priority ∧
    (autoFixSimpleIssues t).1.allocatedTime = t.allocatedTime := by
  have hc : ¬ (t.priority ≠ assignPriorityBySubtaskCount t.subtaskCount ∧
      t.isAutoPriority = true) := by
    rintro ⟨-, h2⟩
    rw [h] at h2
    cases h2
  constructor
  · intro hle
    simp only [autoFixSimpleIssues]
    rw [if_neg hc]
    dsimp only
    rw [if_neg (show ¬ ((t.estimatedTime : ℤ) - (estimateTaskTime t : ℤ)).natAbs > 10 by omega)]
  · simp only [autoFixSimpleIssues]
    rw [if_neg hc]
    dsimp only
    split_ifs with h2
    · exact ⟨rfl, rfl⟩
    · exact ⟨rfl, rfl⟩

/-- Witness for C8 at a concrete manual task with matching estimate. -/
theorem claim8_autofix_manual_witness :
    autoFixSimpleIssues manualTask = (manualTask, false, []) :=
  (claim8_autofix_manual manualTask (by decide)).1 (by decide)

/-- `findIndex` returns nothing when no element satisfies the predicate. -/
theorem jsFindIndex_eq_none {α : Type} (p : α → Bool) (l : List α)
    (h : ∀ a ∈ l, p a = false) : jsFindIndex p l = none := by
  induction l with
  | nil => rfl
  | cons a l ih =>
    simp only [jsFindIndex]
    rw [h a (List.mem_cons_self a l), ih (fun x hx => h x (List.mem_cons_of_mem _ hx))]
    rfl

/-- `findIndex` finds something when some element satisfies the predicate. -/
theorem jsFindIndex_isSome {α : Type} (p : α → Bool) (l : List α)
    (h : ∃ a ∈ l, p a = true) : (jsFindIndex p l).isSome = true := by
  induction l with
  | nil => simp at h
  | cons a l ih =>
    by_cases hp : p a
    · simp [jsFindIndex, hp]
    · rcases h with ⟨x, hx, hpx⟩
      rcases List.mem_cons.mp hx with rfl | hx'
      · exact absurd hpx (by simp [hp])
      · have := ih ⟨x, hx', hpx⟩
        simp only [jsFindIndex, hp, if_false]
        rcases hj : jsFindIndex p l with _ | j
        · rw [hj] at this; cases this
        · rfl

/-- Splicing out the element at the `findIndex` position removes exactly
the first match. -/
theorem jsFindIndex_splice {α : Type} (p : α → Bool) :
    ∀ (l : List α) (i : ℕ), jsFindIndex p l = some i →
      l.take i ++ l.drop (i + 1) = l.eraseP p := by
  intro l
  induction l with
  | nil => intro i h; cases h
  | cons a l ih =>
    intro i h
    by_cases hp : p a
    · simp only [jsFindIndex, hp, if_true] at h
      injection h with h
      subst h
      simp [List.eraseP_cons, hp]
    · have hpf : p a = false := by simpa using hp
      simp only [jsFindIndex, hpf, if_false] at h
      rcases hj : jsFindIndex p l with _ | j
      · rw [hj] at h; cases h
      · rw [hj] at h
        simp only [Option.map_some'] at h
        injection h with h
        subst h
        simp only [List.take_succ_cons, List.drop_succ_cons, List.cons_append,
          List.eraseP_cons, hpf, cond_false]
        rw [ih j hj]

/-- C10: removing an absent subtask id returns false and leaves the record
unchanged; removing a present id returns true, removes exactly the first
subtask with that id, and keeps subtaskCount equal to the sequence
length (no other field changes). -/
theorem claim10_removeSubtask (t : EnhancedTodoItem) (sid : List Char) :
    ((∀ st ∈ t.subtasks, st.id ≠ sid) → removeSubtask t sid = (t, false)) ∧
    ((∃ st ∈ t.subtasks, st.id = sid) →
      (removeSubtask t sid).2 = true ∧
      (removeSubtask t sid).1 =
        { t with
          subtasks := t.subtasks.eraseP (fun st => st.id = sid)
          subtaskCount := (t.subtasks.eraseP (fun st => st.id = sid)).length }) := by
  constructor
  · intro h
    unfold removeSubtask
    rw [jsFindIndex_eq_none _ _ (fun a ha => decide_eq_false (h a ha))]
  · rintro ⟨st, hmem, hid⟩
    have hsome := jsFindIndex_isSome (fun st => decide (st.id = sid)) t.subtasks
      ⟨st, hmem, decide_eq_true hid⟩
    rcases hj : jsFindIndex (fun st => decide (st.id = sid)) t.subtasks with _ | j
    · rw [hj] at hsome; cases hsome
    · have hsplice := jsFindIndex_splice _ t.subtasks j hj
      constructor
      · unfold removeSubtask
        rw [hj]
      · unfold removeSubtask
        rw [hj]
        dsimp only
        rw [hsplice]

/-- Witness for C10: removing from a task with no subtasks is a no-op
returning false. -/
theorem claim10_removeSubtask_witness :
    removeSubtask manualTask "x".data = (manualTask, false) :=
  (claim10_removeSubtask manualTask "x".data).1
    (by intro st hst; simp [manualTask, mkEnhancedTodoItem] at hst)

/-- Every suggestion of the complexity-band fallback carries at least one
subtask title (each band is emitted exactly when non-empty). -/
theorem fallback_suggestion_size (t : EnhancedTodoItem) :
    ∀ s ∈ suggestComplexityBasedBreakdown t, 1 ≤ s.subtasks.length := by
  intro s hs
  simp only [suggestComplexityBasedBreakdown] at hs
  rcases List.mem_append.mp hs with hs' | hz
  · rcases List.mem_append.mp hs' with hx | hy
    · split at hx
      next hlen =>
        rw [List.mem_singleton] at hx
        subst hx
        simp only [List.length_map]
        omega
      next => simp at hx
    · split at hy
      next hlen =>
        rw [List.mem_singleton] at hy
        subst hy
        simp only [List.length_map]
        omega
      next => simp at hy
  · split at hz
    next hlen =>
      rw [List.mem_singleton] at hz
      subst hz
      simp only [List.length_map]
      omega
    next => simp at hz

/-- C7 (amended): every suggestion of the category-grouping phase has at
least two subtask titles; every suggestion of the complexity-band
fallback has at least one; the output of `suggestBreakdown` is exactly
the category suggestions, except when they are empty and the task has
more than six subtasks, in which case it is exactly the fallback; and
the output is deterministic, depending only on the task's title and
subtask list. -/
theorem claim7_breakdown_sizes (t tt : EnhancedTodoItem) :
    ((categorySuggestions t).all (fun s => decide (2 ≤ s.subtasks.length)) = true) ∧
    ((suggestComplexityBasedBreakdown t).all
      (fun s => decide (1 ≤ s.subtasks.length)) = true) ∧
    (suggestBreakdown t = categorySuggestions t ∨
      (t.subtasks.length > 6 ∧ categorySuggestions t = [] ∧
        suggestBreakdown t = suggestComplexityBasedBreakdown t)) ∧
    (t.title = tt.title → t.subtasks = tt.subtasks →
      suggestBreakdown t = suggestBreakdown tt) := by
  refine ⟨?_, ?_, ?_, ?_⟩
  · rw [List.all_eq_true]
    intro s hs
    show decide (2 ≤ s.subtasks.length) = true
    rw [decide_eq_true_eq]
    simp only [categorySuggestions] at hs
    rcases List.mem_filterMap.mp hs with ⟨g, hg, heq⟩
    split at heq
    next hlen =>
      injection heq with heq
      subst heq
      simp only [List.length_map]
      omega
    next => cases heq
  · rw [List.all_eq_true]
    intro s hs
    show decide (1 ≤ s.subtasks.length) = true
    rw [decide_eq_true_eq]
    exact fallback_suggestion_size t s hs
  · by_cases hcond : (categorySuggestions t).length = 0 ∧ t.subtasks.length > 6
    · right
      have hnil := List.length_eq_zero.mp hcond.1
      refine ⟨hcond.2, hnil, ?_⟩
      simp only [suggestBreakdown]
      rw [if_pos hcond, hnil]
      rfl
    · left
      simp only [suggestBreakdown]
      rw [if_neg hcond]
  · intro h1 h2
    simp only [suggestBreakdown, categorySuggestions, suggestComplexityBasedBreakdown]
    rw [h1, h2]

/-- Witness for C7 at a task with two design subtasks: the category
suggestions all have at least two titles, and the determinism conjunct
applies with its hypotheses discharged. -/
theorem claim7_breakdown_sizes_witness :
    (categorySuggestions groupTask).all
      (fun s => decide (2 ≤ s.subtasks.length)) = true ∧
    suggestBreakdown groupTask = suggestBreakdown groupTask :=
  ⟨(claim7_breakdown_sizes groupTask groupTask).1,
   (claim7_breakdown_sizes groupTask groupTask).2.2.2 rfl rfl⟩

/-- The running-total fold of `estimateTaskTime` computes the sum of the
per-subtask contributions. -/
theorem foldl_add_complexity (l : List SubTask) (a : ℕ) :
    l.foldl (fun total st => total + st.complexity * 10) a =
      a + (l.map (fun st => st.complexity * 10)).sum := by
  induction l generalizing a with
  | nil => simp
  | cons st l ih =>
    simp only [List.foldl_cons, List.map_cons, List.sum_cons, ih]
    omega

/-- `estimateTaskTime` in the claim's wording: 30 for no subtasks, else
the sum of complexity × 10. -/
theorem estimateTaskTime_eq (t : EnhancedTodoItem) :
    estimateTaskTime t =
      if t.subtasks = [] then 30
      else (t.subtasks.map (fun st => st.complexity * 10)).sum := by
  unfold estimateTaskTime
  rcases h : t.subtasks with _ | ⟨a, l⟩
  · simp [h]
  · simp [h, foldl_add_complexity]

/-- C6: the suitability analysis reports a TimeMismatch issue of severity
High iff the estimated time (30 with no subtasks, else the sum of
complexity × 10) strictly exceeds 1.5 × the tier's allocation (stated
cross-multiplied by 2: `2·estimate > 3·allocation`); the recommended
action is required iff some issue is High, suggested iff issues exist but
none is High, and none iff there are no issues. -/
theorem claim6_timeMismatch_and_action (t : EnhancedTodoItem) :
    (((analyzeTaskSuitability t).issues.any
        (fun i => decide (i.type = IssueType.TIME_MISMATCH) &&
          decide (i.severity = IssueSeverity.HIGH)) = true) ↔
      2 * (if t.subtasks = [] then 30
           else (t.subtasks.map (fun st => st.complexity * 10)).sum) >
        3 * timePerTask t.priority) ∧
    ((analyzeTaskSuitability t).recommendedAction = RecommendedAction.required ↔
      ∃ i ∈ (analyzeTaskSuitability t).issues, i.severity = IssueSeverity.HIGH) ∧
    ((analyzeTaskSuitability t).recommendedAction = RecommendedAction.suggested ↔
      (analyzeTaskSuitability t).issues ≠ [] ∧
        ∀ i ∈ (analyzeTaskSuitability t).issues, i.severity ≠ IssueSeverity.HIGH) ∧
    ((analyzeTaskSuitability t).recommendedAction = RecommendedAction.none ↔
      (analyzeTaskSuitability t).issues = []) := by
  have hex : exceedsTimeAllocationLimits t = true ↔
      2 * (if t.subtasks = [] then 30
           else (t.subtasks.map (fun st => st.complexity * 10)).sum) >
        3 * timePerTask t.priority := by
    rw [← estimateTaskTime_eq]
    unfold exceedsTimeAllocationLimits
    rw [decide_eq_true_eq]
  obtain ⟨n, hn⟩ : ∃ n, (if t.subtasks = [] then (30 : ℕ)
      else (t.subtasks.map (fun st => st.complexity * 10)).sum) = n := ⟨_, rfl⟩
  rw [hn] at hex ⊢
  by_cases h1 : isTooComplexForSingleTask t <;>
    by_cases h2 : hasInconsistentSubtaskComplexity t <;>
    by_cases h3 : exceedsTimeAllocationLimits t <;>
    simp [analyzeTaskSuitability, getRecommendedAction, h1, h2, h3] <;>
    first
      | (have hgt := hex.mp h3
         omega)
      | (have hng : ¬ (2 * n > 3 * timePerTask t.priority) := fun g => h3 (hex.mpr g)
         omega)

/-- A successful date assignment never changes the stored priority. -/
theorem assignToDate_ok_priority (t t2 : EnhancedTodoItem) (date : JsDate) (now : Clock)
    (h : assignToDate t date now = Except.ok t2) : t2.priority = t.priority := by
  rcases date with day | s
  · simp only [assignToDate] at h
    injection h with h
    subst h
    split <;> rfl
  · cases h

/-- A successful date assignment never changes the auto-priority flag. -/
theorem assignToDate_ok_isAuto (t t2 : EnhancedTodoItem) (date : JsDate) (now : Clock)
    (h : assignToDate t date now = Except.ok t2) : t2.isAutoPriority = t.isAutoPriority := by
  rcases date with day | s
  · simp only [assignToDate] at h
    injection h with h
    subst h
    split <;> rfl
  · cases h

set_option maxHeartbeats 1600000 in
/-- C5 (amended): whenever the line parses to a record, isAutoPriority is
false exactly when a manual-override tag is present, the record's tier is
the override when present and the subtask-count classification otherwise,
and the `#priority/<letter>` form takes precedence over the bare form
whenever it matches anywhere in the line, regardless of position. -/
theorem claim5_priority_override (dtc : List Char → Option (List Char))
    (line fp : List Char) (n : ℕ) (content : List Char)
    (now : Clock) (todo : EnhancedTodoItem)
    (h : parseEnhancedTodoLine dtc line fp n content now = Except.ok (some todo)) :
    todo.isAutoPriority = (extractManualPriority line).isNone ∧
    todo.priority = (extractManualPriority line).getD
      (assignPriorityBySubtaskCount (parseSubtasksWithComplexity content n).length) ∧
    ∀ p, findPriorityFormTag line = some p → extractManualPriority line = some p := by
  obtain ⟨h1, h2⟩ : todo.isAutoPriority = (extractManualPriority line).isNone ∧
      todo.priority = (extractManualPriority line).getD
        (assignPriorityBySubtaskCount (parseSubtasksWithComplexity content n).length) := by
    simp only [parseEnhancedTodoLine] at h
    split at h
    case isFalse => cases h
    case isTrue ht =>
      split at h
      next d =>
        simp only [assignToDate, Except.map] at h
        injection h with h
        injection h with h
        subst h
        exact ⟨by split <;> rfl, by split <;> rfl⟩
      next =>
        split at h
        · split at h
          next d =>
            simp only [assignToDate, Except.map] at h
            cases h
          next =>
            injection h with h
            injection h with h
            subst h
            exact ⟨rfl, rfl⟩
        · injection h with h
          injection h with h
          subst h
          exact ⟨rfl, rfl⟩
  refine ⟨h1, h2, fun p hp => ?_⟩
  unfold extractManualPriority
  rw [hp]

/-- Witness for C5: on the concrete line with both tag forms the parse
yields a manually-overridden record with tier A. -/
theorem claim5_priority_override_witness :
    ((parseEnhancedTodoLine findDateTagCapture prLine "a.md".data 0 prLine clock0).map
      (Option.map (fun t => (t.isAutoPriority, t.priority)))) =
      Except.ok (some (false, TaskPriority.A)) := by
  rcases hp : parseEnhancedTodoLine findDateTagCapture prLine "a.md".data 0 prLine clock0
    with e | o
  · cases e
    exact absurd hp (by decide)
  · rcases o with _ | t
    · exact absurd hp (by decide)
    · have h := claim5_priority_override findDateTagCapture prLine "a.md".data 0 prLine
        clock0 t hp
      simp only [Except.map, Option.map_some']
      rw [h.1, h.2.1]
      decide

/-- Everything `takeWhile` keeps satisfies the predicate. -/
theorem all_takeWhile (p : Char → Bool) (l : List Char) :
    (l.takeWhile p).all p = true := by
  induction l with
  | nil => rfl
  | cons a l ih =>
    by_cases h : p a
    · simp [List.takeWhile_cons, h, ih]
    · simp [List.takeWhile_cons, h]

/-- Dropping while `p` holds skips over any all-`p` prefix. -/
theorem dropWhile_append_all (p : Char → Bool) (w l : List Char)
    (h : w.all p = true) : (w ++ l).dropWhile p = l.dropWhile p := by
  induction w with
  | nil => rfl
  | cons a w ih =>
    simp only [List.all_cons, Bool.and_eq_true] at h
    simp [List.dropWhile_cons, h.1, ih h.2]

/-- Shape characterization of the checkbox matcher. -/
theorem checkboxAt_iff (l : List Char) :
    checkboxAt l = true ↔
      ∃ d r, l = '[' :: d :: ']' :: r ∧ (d = ' ' ∨ d = 'x') := by
  rcases l with _ | ⟨a, _ | ⟨d, _ | ⟨e, r⟩⟩⟩
  · simp [checkboxAt]
  · simp [checkboxAt]
  · simp [checkboxAt]
  · constructor
    · intro h
      simp only [checkboxAt, Bool.and_eq_true, Bool.or_eq_true, decide_eq_true_eq] at h
      refine ⟨d, r, ?_, h.2⟩
      rw [h.1.1, h.1.2]
    · rintro ⟨d', r', heq, hd⟩
      injection heq with h1 heq
      injection heq with h2 heq
      injection heq with h3 heq
      subst h1
      subst h2
      subst h3
      subst heq
      rcases hd with rfl | rfl <;> rfl

/-- C3 (amended): a line is recognized as a task line iff it decomposes as
optional leading whitespace, a `-` or `*` bullet, one or more whitespace
characters, and a bracketed checkbox containing a space or a lowercase x. -/
theorem claim3_isTodoLine_iff (l : List Char) :
    isTodoLine l = true ↔
      ∃ w b s d r, l = w ++ b :: (s ++ '[' :: d :: ']' :: r) ∧
        w.all isJsWhitespace = true ∧ (b = '-' ∨ b = '*') ∧
        s ≠ [] ∧ s.all isJsWhitespace = true ∧ (d = ' ' ∨ d = 'x') := by
  constructor
  · intro h
    unfold isTodoLine at h
    rcases hl : l.dropWhile isJsWhitespace with _ | ⟨b, rest⟩
    · rw [hl] at h; cases h
    · rw [hl] at h
      rcases rest with _ | ⟨c, rest'⟩
      · simp [matchBulletSpaceCheckbox] at h
      · simp only [matchBulletSpaceCheckbox, Bool.and_eq_true, Bool.or_eq_true,
          decide_eq_true_eq] at h
        obtain ⟨⟨hb, hc⟩, hcb⟩ := h
        rw [checkboxAt_iff] at hcb
        obtain ⟨d, r, hshape, hd⟩ := hcb
        refine ⟨l.takeWhile isJsWhitespace, b, (c :: rest').takeWhile isJsWhitespace,
          d, r, ?_, all_takeWhile _ _, hb, ?_, all_takeWhile _ _, hd⟩
        · have hsplit1 : l = l.takeWhile isJsWhitespace ++ l.dropWhile isJsWhitespace :=
            (List.takeWhile_append_dropWhile isJsWhitespace l).symm
          have hsplit2 : (c :: rest') =
              (c :: rest').takeWhile isJsWhitespace ++ ('[' :: d :: ']' :: r) := by
            conv_lhs => rw [← List.takeWhile_append_dropWhile isJsWhitespace (c :: rest')]
            rw [hshape]
          conv_lhs => rw [hsplit1, hl]
          rw [← hsplit2]
        · rw [List.takeWhile_cons, if_pos hc]
          exact List.cons_ne_nil _ _
  · rintro ⟨w, b, s, d, r, rfl, hw, hb, hs, hsall, hd⟩
    unfold isTodoLine
    rw [dropWhile_append_all _ _ _ hw]
    have hbws : ¬ isJsWhitespace b = true := by
      rcases hb with rfl | rfl <;> decide
    rw [List.dropWhile_cons, if_neg hbws]
    rcases s with _ | ⟨s0, s'⟩
    · exact absurd rfl hs
    · simp only [List.all_cons, Bool.and_eq_true] at hsall
      show matchBulletSpaceCheckbox (b :: s0 :: (s' ++ '[' :: d :: ']' :: r)) = true
      simp only [matchBulletSpaceCheckbox, Bool.and_eq_true, Bool.or_eq_true,
        decide_eq_true_eq]
      refine ⟨⟨hb, hsall.1⟩, ?_⟩
      rw [checkboxAt_iff]
      refine ⟨d, r, ?_, hd⟩
      rw [List.dropWhile_cons, if_pos hsall.1, dropWhile_append_all _ _ _ hsall.2,
        List.dropWhile_cons, if_neg (by decide)]

/-- On a path that is not a daily note, a line passing `isTodoLine`
always yields a record and never throws. -/
theorem parseLine_ok (dtc : List Char → Option (List Char)) (line fp : List Char)
    (n : ℕ) (content : List Char) (c : Clock)
    (hfp : isDailyNote fp = false) (ht : isTodoLine line = true) :
    ∃ v, parseEnhancedTodoLine dtc line fp n content c = Except.ok (some v) := by
  simp only [parseEnhancedTodoLine, ht, if_true]
  rcases hd : extractDueDate dtc line with _ | d <;> simp only [hd]
  · rw [if_neg (by simp [hfp])]
    exact ⟨_, rfl⟩
  · dsimp only [assignToDate, Except.map]
    exact ⟨_, rfl⟩

/-- Overwriting every subtask's parentTaskId is invisible to `subCore`. -/
theorem subCore_parent (p : List Char) (l : List SubTask) :
    (l.map (fun st => { st with parentTaskId := p })).map subCore = l.map subCore := by
  induction l with
  | nil => rfl
  | cons a l ih => simp [subCore, ih]

/-- Per-line clock invariance: the clock-independent view of the parse
result — a thrown error included — does not depend on the invocation
clock. -/
theorem parseLine_coreView (dtc : List Char → Option (List Char))
    (line fp : List Char) (n : ℕ) (content : List Char) (c1 c2 : Clock) :
    (parseEnhancedTodoLine dtc line fp n content c1).map (Option.map coreView) =
      (parseEnhancedTodoLine dtc line fp n content c2).map (Option.map coreView) := by
  by_cases ht : isTodoLine line = true
  · simp only [parseEnhancedTodoLine, ht, if_true]
    rcases hd : extractDueDate dtc line with _ | d <;> simp only [hd]
    · split_ifs with hdn
      · rcases hdd : extractDateFromDailyNote fp with _ | dd <;> simp only [hdd]
        · simp [Except.map, coreView, mkEnhancedTodoItem, subCore_parent, subCore]
        · rfl
      · simp [Except.map, coreView, mkEnhancedTodoItem, subCore_parent, subCore]
    · simp [Except.map, assignToDate, coreView, mkEnhancedTodoItem, subCore_parent, subCore]
  · simp [parseEnhancedTodoLine, ht]

/-- Clock invariance of the whole line loop, modulo `coreView`. -/
theorem parseLinesGo_coreView (dtc : List Char → Option (List Char))
    (fp content : List Char) (c1 c2 : Clock) :
    ∀ ps : List (ℕ × List Char),
      (parseLinesGo dtc fp content c1 ps).map (fun rs => rs.map coreView) =
        (parseLinesGo dtc fp content c2 ps).map (fun rs => rs.map coreView) := by
  intro ps
  induction ps with
  | nil => rfl
  | cons p ps ih =>
    by_cases ht : isTodoLine p.2
    · have hline := parseLine_coreView dtc p.2 fp p.1 content c1 c2
      simp only [parseLinesGo, ht, if_true]
      rcases h1 : parseEnhancedTodoLine dtc p.2 fp p.1 content c1 with e1 | o1
      · rcases h2 : parseEnhancedTodoLine dtc p.2 fp p.1 content c2 with e2 | o2
        · cases e1
          cases e2
          rfl
        · rw [h1, h2] at hline
          simp [Except.map] at hline
      · rcases h2 : parseEnhancedTodoLine dtc p.2 fp p.1 content c2 with e2 | o2
        · rw [h1, h2] at hline
          simp [Except.map] at hline
        · rw [h1, h2] at hline
          simp only [Except.map] at hline
          injection hline with hline
          rcases o1 with _ | t1
          · rcases o2 with _ | t2
            · exact ih
            · cases hline
          · rcases o2 with _ | t2
            · cases hline
            · injection hline with hcv
              rcases hr1 : parseLinesGo dtc fp content c1 ps with er1 | l1
              · rcases hr2 : parseLinesGo dtc fp content c2 ps with er2 | l2
                · cases er1
                  cases er2
                  rfl
                · rw [hr1, hr2] at ih
                  simp [Except.map] at ih
              · rcases hr2 : parseLinesGo dtc fp content c2 ps with er2 | l2
                · rw [hr1, hr2] at ih
                  simp [Except.map] at ih
                · rw [hr1, hr2] at ih
                  simp only [Except.map] at ih ⊢
                  injection ih with ih
                  rw [List.map_cons, List.map_cons, ih, hcv]
    · simp only [parseLinesGo]
      rw [if_neg ht, if_neg ht]
      exact ih

/-- On a non-daily-note path the line loop never throws and returns one
record per task line among the pairs. -/
theorem parseLinesGo_length (dtc : List Char → Option (List Char))
    (fp content : List Char) (c : Clock) (hfp : isDailyNote fp = false) :
    ∀ ps : List (ℕ × List Char),
      (parseLinesGo dtc fp content c ps).map List.length =
        Except.ok (ps.filter (fun p => isTodoLine p.2)).length := by
  intro ps
  induction ps with
  | nil => rfl
  | cons p ps ih =>
    by_cases ht : isTodoLine p.2
    · obtain ⟨v, hv⟩ := parseLine_ok dtc p.2 fp p.1 content c hfp ht
      simp only [parseLinesGo, ht, if_true, hv, List.filter_cons]
      rcases hr : parseLinesGo dtc fp content c ps with er | l <;> rw [hr] at ih
      · simp [Except.map] at ih
      · simp only [Except.map] at ih ⊢
        injection ih with ih
        simp [ht, ih]
    · simp only [parseLinesGo, List.filter_cons]
      rw [if_neg ht]
      simp [ht, ih]

/-- Filtering the enumerated lines on the second component counts the
same lines as filtering the lines themselves. -/
theorem enumFrom_filter_length (ls : List (List Char)) :
    ∀ k : ℕ, ((List.enumFrom k ls).filter (fun p => isTodoLine p.2)).length =
      (ls.filter isTodoLine).length := by
  induction ls with
  | nil => intro k; rfl
  | cons a ls ih =>
    intro k
    by_cases ht : isTodoLine a <;>
      simp [List.enumFrom, List.filter_cons, ht, ih (k + 1)]

/-- C9 (amended): for every document, every configuration (abstracted as
the date-tag capture function it induces) and any two invocation clocks,
the two parse results agree modulo the clock-derived fields (the
generated id, the creation timestamp, the isAssignedToday flag and the
subtasks' parentTaskId), a thrown error included; on every path that is
not a daily-note name the parse is total and returns exactly one record
per line passing the task-line test and none for any other line; and on
a daily-note path a dateless task line makes the parse throw (the raw
filename string reaches `assignToDate`, whose `startOf` call fails). -/
theorem claim9_parse_invariance (dtc : List Char → Option (List Char))
    (fp content : List Char) (c1 c2 : Clock) :
    (parseEnhancedTodosInFile dtc fp content c1).map (fun rs => rs.map coreView) =
      (parseEnhancedTodosInFile dtc fp content c2).map (fun rs => rs.map coreView) ∧
    (isDailyNote fp = false →
      (parseEnhancedTodosInFile dtc fp content c1).map List.length =
        Except.ok ((splitLines content).filter isTodoLine).length) ∧
    parseEnhancedTodosInFile findDateTagCapture "2024-05-03.md".data "- [ ] x".data c1 =
      Except.error () := by
  refine ⟨parseLinesGo_coreView dtc fp content c1 c2 _, fun hfp => ?_, ?_⟩
  · rw [parseEnhancedTodosInFile, parseLinesGo_length dtc fp content c1 hfp]
    have he := enumFrom_filter_length (splitLines content) 0
    rw [show List.enumFrom 0 (splitLines content) = (splitLines content).enum from rfl] at he
    rw [he]
  · rfl

/-- Witness for C9 on a non-daily-note path: the hypothesis of the
totality conjunct discharged concretely. -/
theorem claim9_parse_invariance_witness :
    (parseEnhancedTodosInFile findDateTagCapture "a.md".data "- [ ] x".data clock0).map
      List.length =
      Except.ok ((splitLines "- [ ] x".data).filter isTodoLine).length :=
  (claim9_parse_invariance findDateTagCapture "a.md".data "- [ ] x".data clock0
    clock0).2.1 (by decide)
